import Mathlib

/-!
Verification of the provisioning orchestrator of dyte-cms-starter.

The subsystem under study is the provisioning pipeline of the CLI:

* the progress timeline and its transition function updateStep
  (src/unnamed/part_002, lines 676-687);
* the readiness poller waitForPayloadReady and the connection test
  testPayloadConnection (src/cli-tool/src/services/payload.ts);
* the bounded output buffers of the subprocess steps runNpmInstall and
  runPayloadMigrationGeneration (src/unnamed/part_002, lines 689-816);
* the thirteen-step runProvisioning pipeline with its rollback handler
  (src/unnamed/part_002, lines 330-844).

The source is a React (ink) function component.  The embedding keeps React
state semantics explicit: state writes performed through functional updater
calls, for example setProvisioningSteps(prev => ...), act on the live state,
while a plain read of a state variable inside an async closure sees the value
the variable had in the render that created the closure.  runProvisioning and
rollback are created in the render in which the provisioning effect fires, so
the reads of provisioningSteps (part_002, line 662) and createdResources
(lines 822 and 834) see that render's snapshot, which on a run started from
the questionnaire or the collection preview is the initial state: an empty
step list and an empty resource record.  The embedding therefore passes that
captured snapshot separately from the live state that the run threads along.

External collaborators (scaffolder, Railway client, GitHub client, HTTP
probes, subprocesses) are modelled by an environment that fixes the outcome
of every collaborator call, as an Except value carrying the thrown message on
failure.
-/

/-- Status of one provisioning step; the four string statuses of the
ProvisioningStep type in the source. -/
inductive StepStatus where
  | pending
  | in_progress
  | complete
  | error
  deriving DecidableEq, BEq, Repr

/-- One entry of the progress timeline, mirroring the ProvisioningStep record
of the source: a label, a status, an optional error message and optional
detail lines (undefined in JS is modelled as none). -/
structure ProvisioningStep where
  label : String
  status : StepStatus
  error : Option String := none
  details : Option (List String) := none
  deriving DecidableEq, Repr

/-- Transition function of the progress timeline, from updateStep
(src/unnamed/part_002, lines 676-687): the JS body is
steps.map((s, i) => i === index ? Object-spread of s with the new status,
error and details : s).  Omitted JS arguments arrive as undefined and are
modelled as none. -/
def updateStep (steps : List ProvisioningStep) (index : Nat) (status : StepStatus)
    (errorMsg : Option String) (details : Option (List String)) : List ProvisioningStep :=
  steps.mapIdx fun i s =>
    if i = index then { s with status := status, error := errorMsg, details := details } else s

/-- C10: updateStep leaves every entry at an index other than the updated one
unchanged, and when the index is outside the range of the timeline it leaves
the whole timeline unchanged. -/
theorem updateStep_frame (steps : List ProvisioningStep) (i : Nat) (status : StepStatus)
    (errorMsg : Option String) (details : Option (List String)) :
    (∀ j, j ≠ i → (updateStep steps i status errorMsg details)[j]? = steps[j]?) ∧
      (steps.length ≤ i → updateStep steps i status errorMsg details = steps) := by
  constructor
  · intro j hj
    simp [updateStep, List.getElem?_mapIdx, hj]
  · intro hi
    apply List.ext_getElem?
    intro j
    simp only [updateStep, List.getElem?_mapIdx]
    rcases Nat.lt_or_ge j steps.length with h | h
    · have hji : j ≠ i := Nat.ne_of_lt (Nat.lt_of_lt_of_le h hi)
      simp [hji]
    · rw [List.getElem?_eq_none h]
      simp

/-- Witness for C10 at a concrete timeline, index and update. -/
theorem updateStep_frame_witness :
    (updateStep [⟨"a", .pending, none, none⟩, ⟨"b", .pending, none, none⟩] 0
        .in_progress none none)[1]? = some ⟨"b", .pending, none, none⟩ ∧
      updateStep [⟨"a", .pending, none, none⟩] 5 .complete none none =
        [⟨"a", .pending, none, none⟩] := by
  refine ⟨?_, ?_⟩
  · rw [(updateStep_frame [⟨"a", .pending, none, none⟩, ⟨"b", .pending, none, none⟩] 0
      .in_progress none none).1 1 (by decide)]
    rfl
  · exact (updateStep_frame [⟨"a", .pending, none, none⟩] 5 .complete none none).2 (by decide)

/-! ## Readiness poller (src/cli-tool/src/services/payload.ts) -/

/-- Readiness test applied to one HTTP probe response inside
waitForPayloadReady (payload.ts, line 64):
response.status === 401 || response.status === 200 || response.status === 403.
A response of none models a thrown fetch (transport failure), which the
surrounding try/catch swallows, so it counts as not ready. -/
def payloadResponseReady : Option Nat → Bool
  | some status => status == 401 || status == 200 || status == 403
  | none => false

/-- Shallow embedding of testPayloadConnection (payload.ts, lines 396-409):
the same status test, with a thrown fetch caught and returned as false. -/
def testPayloadConnection (response : Option Nat) : Bool :=
  match response with
  | some status => status == 401 || status == 200 || status == 403
  | none => false

/-- Readiness predicate written from the words of the spec (section 6:
"any 2xx/401/403 counts as ready"), to be compared with the predicate the
code implements. -/
def specReadyStatus (response : Option Nat) : Bool :=
  match response with
  | some status => (200 ≤ status && status < 300) || status == 401 || status == 403
  | none => false

/-- Observable behaviour of one waitForPayloadReady call: the sleep-clock
time at which every probe call was made (total milliseconds slept before that
call) and the outcome, with the timeout message on failure. -/
structure PollResult where
  callTimesMs : List Nat
  outcome : Except String Unit
  deriving Repr

/-- Timeout message thrown by waitForPayloadReady (payload.ts, line 77).  The
JS computes (maxAttempts * intervalMs) / 1000 with float division; we use
natural division, exact on the inputs of interest. -/
def timeoutMessage (maxAttempts intervalMs : Nat) : String :=
  "Payload CMS did not become ready after " ++ toString maxAttempts ++
    " attempts (" ++ toString (maxAttempts * intervalMs / 1000) ++ "s)"

/-- Attempt loop of waitForPayloadReady (payload.ts, lines 52-75).  probe n is
the response of the n-th fetch (none when fetch throws); t is the sleep time
accumulated so far; attempt is the 1-based attempt counter; fuel is
maxAttempts + 1 - attempt, so the loop sleeps intervalMs after a failed
attempt exactly when attempt < maxAttempts (fuel > 1).  Returns the probe
call times and whether a ready response was observed. -/
def pollLoop (probe : Nat → Option Nat) (intervalMs : Nat) :
    Nat → Nat → Nat → List Nat × Bool
  | _, _, 0 => ([], false)
  | t, attempt, fuel + 1 =>
    if payloadResponseReady (probe attempt) then ([t], true)
    else if fuel = 0 then ([t], false)
    else
      let rest := pollLoop probe intervalMs (t + intervalMs) (attempt + 1) fuel
      (t :: rest.1, rest.2)

/-- Shallow embedding of waitForPayloadReady (payload.ts, lines 40-78): sleep
initialDelayMs once (a no-op when it is zero, matching the guard in the
source), then run the attempt loop from attempt 1 with fuel maxAttempts. -/
def waitForPayloadReady (probe : Nat → Option Nat)
    (maxAttempts intervalMs initialDelayMs : Nat) : PollResult :=
  let r := pollLoop probe intervalMs initialDelayMs 1 maxAttempts
  { callTimesMs := r.1
    outcome := if r.2 then Except.ok () else Except.error (timeoutMessage maxAttempts intervalMs) }

/-- Default parameters of waitForPayloadReady at its call site in the pipeline
(payload.ts, lines 42-44): 60 attempts, 5000 ms interval, 180000 ms initial
delay. -/
def waitForPayloadReadyDefaults (probe : Nat → Option Nat) : PollResult :=
  waitForPayloadReady probe 60 5000 180000

/-- Arithmetic helper: the list of call times starting at t peels off its head
and restarts at t + iv. -/
theorem pollTimes_shift (t iv n : Nat) :
    ((List.range (n + 1)).map fun j => t + j * iv) =
      t :: ((List.range n).map fun j => t + iv + j * iv) := by
  rw [List.range_succ_eq_map]
  simp only [List.map_cons, List.map_map, Nat.zero_mul, Nat.add_zero]
  refine congrArg _ ?_
  apply List.map_congr_left
  intro j hj
  simp only [Function.comp_apply, Nat.succ_mul, Nat.succ_eq_add_one]
  omega

/-- Characterisation of the attempt loop when no probe is ever ready: exactly
fuel probe calls, spaced intervalMs apart starting at t, and failure. -/
theorem pollLoop_never_ready (probe : Nat → Option Nat) (intervalMs : Nat)
    (hnever : ∀ i, payloadResponseReady (probe i) = false) :
    ∀ fuel t attempt, pollLoop probe intervalMs t attempt fuel =
      ((List.range fuel).map fun j => t + j * intervalMs, false) := by
  intro fuel
  induction fuel with
  | zero => intro t attempt; simp [pollLoop]
  | succ f ih =>
    intro t attempt
    rcases Nat.eq_zero_or_pos f with hf | hf
    · subst hf
      rw [pollTimes_shift]
      simp [pollLoop, hnever]
    · have hfne : f ≠ 0 := Nat.pos_iff_ne_zero.mp hf
      have hstep : pollLoop probe intervalMs t attempt (f + 1)
          = (t :: (pollLoop probe intervalMs (t + intervalMs) (attempt + 1) f).1,
             (pollLoop probe intervalMs (t + intervalMs) (attempt + 1) f).2) := by
        simp [pollLoop, hnever, hfne]
      rw [hstep, ih (t + intervalMs) (attempt + 1), pollTimes_shift]

/-- Characterisation of the attempt loop when the probes starting at attempt a
are not ready for k calls and ready on the next: success after exactly k + 1
calls spaced intervalMs apart. -/
theorem pollLoop_ready_after (probe : Nat → Option Nat) (intervalMs : Nat) :
    ∀ k fuel t a, k + 1 ≤ fuel →
      (∀ i, a ≤ i → i < a + k → payloadResponseReady (probe i) = false) →
      payloadResponseReady (probe (a + k)) = true →
      pollLoop probe intervalMs t a fuel =
        ((List.range (k + 1)).map fun j => t + j * intervalMs, true) := by
  intro k
  induction k with
  | zero =>
    intro fuel t a hfuel _ hready
    match fuel, hfuel with
    | f + 1, _ =>
      simp only [Nat.add_zero] at hready
      rw [pollTimes_shift]
      simp [pollLoop, hready]
  | succ k ih =>
    intro fuel t a hfuel hnot hready
    match fuel, hfuel with
    | f + 1, hfuel =>
      have hf : k + 1 ≤ f := by omega
      have hnota : payloadResponseReady (probe a) = false := by
        apply hnot a (Nat.le_refl a); omega
      have hfne : f ≠ 0 := by omega
      have hstep : pollLoop probe intervalMs t a (f + 1)
          = (t :: (pollLoop probe intervalMs (t + intervalMs) (a + 1) f).1,
             (pollLoop probe intervalMs (t + intervalMs) (a + 1) f).2) := by
        simp [pollLoop, hnota, hfne]
      rw [hstep, ih f (t + intervalMs) (a + 1) hf
        (by intro i h1 h2; apply hnot i (by omega) (by omega))
        (by have h : a + 1 + k = a + (k + 1) := by omega
            rw [h]; exact hready)]
      simp [pollTimes_shift]

/-- C7: when the probe is not ready for the first k calls (k < maxAttempts)
and ready on the next, waitForPayloadReady succeeds, makes exactly k + 1 probe
calls, and consecutive calls are separated by exactly intervalMs of sleep
(hence at least the configured interval). -/
theorem waitForPayloadReady_ready_after_k (probe : Nat → Option Nat)
    (maxAttempts intervalMs initialDelayMs k : Nat)
    (hk : k + 1 ≤ maxAttempts)
    (hnot : ∀ i, 1 ≤ i → i ≤ k → payloadResponseReady (probe i) = false)
    (hready : payloadResponseReady (probe (k + 1)) = true) :
    (waitForPayloadReady probe maxAttempts intervalMs initialDelayMs).outcome = Except.ok () ∧
      (waitForPayloadReady probe maxAttempts intervalMs initialDelayMs).callTimesMs.length
          = k + 1 ∧
      (waitForPayloadReady probe maxAttempts intervalMs initialDelayMs).callTimesMs =
        (List.range (k + 1)).map fun j => initialDelayMs + j * intervalMs := by
  have hloop := pollLoop_ready_after probe intervalMs k maxAttempts initialDelayMs 1 hk
    (by intro i h1 h2; exact hnot i h1 (by omega))
    (by have : 1 + k = k + 1 := by omega
        rw [this]; exact hready)
  refine ⟨?_, ?_, ?_⟩ <;> simp [waitForPayloadReady, hloop]

/-- Witness for C7: a probe that is not ready on attempt 1 and ready on
attempt 2, with 3 allowed attempts, succeeds after exactly 2 calls made at
sleep times 100 and 100 + 7. -/
theorem waitForPayloadReady_ready_after_k_witness :
    (waitForPayloadReady (fun i => if i = 2 then some 200 else none) 3 7 100).outcome
        = Except.ok () ∧
      (waitForPayloadReady (fun i => if i = 2 then some 200 else none) 3 7 100).callTimesMs.length
        = 2 ∧
      (waitForPayloadReady (fun i => if i = 2 then some 200 else none) 3 7 100).callTimesMs =
        (List.range 2).map fun j => 100 + j * 7 :=
  waitForPayloadReady_ready_after_k (fun i => if i = 2 then some 200 else none) 3 7 100 1
    (by decide)
    (by intro i h1 h2
        have : i = 1 := by omega
        subst this
        decide)
    (by decide)

/-- C6 (amended): when the probe never reports ready, waitForPayloadReady
fails only after exactly maxAttempts probe calls; the sleep clock before the
last call is initialDelayMs + (maxAttempts - 1) * intervalMs, but the timeout
error it raises reports maxAttempts * intervalMs (the message of payload.ts
line 77), which does not account for the initial delay. -/
theorem waitForPayloadReady_timeout (probe : Nat → Option Nat)
    (maxAttempts intervalMs initialDelayMs : Nat)
    (hnever : ∀ i, payloadResponseReady (probe i) = false)
    (hpos : 1 ≤ maxAttempts) :
    (waitForPayloadReady probe maxAttempts intervalMs initialDelayMs).outcome
        = Except.error (timeoutMessage maxAttempts intervalMs) ∧
      (waitForPayloadReady probe maxAttempts intervalMs initialDelayMs).callTimesMs.length
        = maxAttempts ∧
      (waitForPayloadReady probe maxAttempts intervalMs initialDelayMs).callTimesMs.getLast?
        = some (initialDelayMs + (maxAttempts - 1) * intervalMs) := by
  have h := pollLoop_never_ready probe intervalMs hnever maxAttempts initialDelayMs 1
  refine ⟨?_, ?_, ?_⟩
  · simp [waitForPayloadReady, h]
  · simp [waitForPayloadReady, h]
  · simp only [waitForPayloadReady, h]
    rw [List.getLast?_eq_getElem?]
    simp [List.getElem?_map, List.getElem?_range, Nat.sub_lt (by omega : 0 < maxAttempts)
      (by omega : 0 < 1)]

/-- Witness for C6 at a concrete never-ready probe. -/
theorem waitForPayloadReady_timeout_witness :
    (waitForPayloadReady (fun _ => none) 3 5000 180000).outcome
        = Except.error (timeoutMessage 3 5000) ∧
      (waitForPayloadReady (fun _ => none) 3 5000 180000).callTimesMs.length = 3 ∧
      (waitForPayloadReady (fun _ => none) 3 5000 180000).callTimesMs.getLast?
        = some (180000 + (3 - 1) * 5000) :=
  waitForPayloadReady_timeout (fun _ => none) 3 5000 180000 (fun _ => rfl) (by decide)

/-- Counterexample for C6 as stated: with 3 attempts, a 5000 ms interval and a
180000 ms initial delay, the timeout error reports 15 seconds
(maxAttempts * intervalMs), while initial_delay + (maxAttempts - 1) * interval
is 190000 ms; even granting a slack of one whole interval the reported
duration stays below the claimed one, so the error does not report
approximately initial_delay + (maxAttempts - 1) * interval. -/
theorem waitForPayloadReady_report_cex :
    (waitForPayloadReady (fun _ => none) 3 5000 180000).outcome
        = Except.error "Payload CMS did not become ready after 3 attempts (15s)" ∧
      3 * 5000 + 5000 < 180000 + (3 - 1) * 5000 := by
  constructor
  · rfl
  · omega

/-- C8 (amended): both readiness tests of payload.ts count the service ready
exactly when the HTTP status is 200, 401 or 403; every other status —
including every other 2xx — and every transport failure (response none)
counts as not ready, and the poller and testPayloadConnection agree. -/
theorem readyStatus_characterisation :
    ∀ response : Option Nat,
      payloadResponseReady response = testPayloadConnection response ∧
        (testPayloadConnection response = true ↔
          response = some 200 ∨ response = some 401 ∨ response = some 403) := by
  intro response
  rcases response with _ | s
  · simp [payloadResponseReady, testPayloadConnection]
  · refine ⟨rfl, ?_⟩
    simp only [testPayloadConnection, Bool.or_eq_true, beq_iff_eq, Option.some_inj]
    tauto

/-- Counterexample for C8 as stated: status 204 is a 2xx, so the claim counts
it ready, but testPayloadConnection (and the poller predicate) return false
for it. -/
theorem readyStatus_2xx_cex :
    testPayloadConnection (some 204) = false ∧
      payloadResponseReady (some 204) = false ∧
      specReadyStatus (some 204) = true := by
  decide

/-! ## Bounded subprocess output windows (src/unnamed/part_002, lines 689-816) -/

/-- The two rolling output windows kept by runNpmInstall (part_002, lines
695-696) and runPayloadMigrationGeneration (lines 759-760): outputLines is
the live display window, allOutput the window retained for the error
message. -/
structure OutputBuffers where
  outputLines : List String
  allOutput : List String
  deriving DecidableEq, Repr

/-- Maximum length of the live display window (const maxLines = 5 in both
subprocess helpers). -/
def maxLines : Nat := 5

/-- Maximum length of the error-reporting window (const maxErrorLines = 50 in
both subprocess helpers). -/
def maxErrorLines : Nat := 50

/-- Push one entry on a bounded window: push, then shift the oldest entry off
when the window now exceeds its maximum (the push/shift pairs at part_002,
lines 708-717 and 776-783). -/
def pushBounded (maxLen : Nat) (w : List String) (x : String) : List String :=
  if maxLen < (w ++ [x]).length then (w ++ [x]).tail else w ++ [x]

/-- The addLine callback shared by both subprocess steps (part_002, lines
705-721 and 773-786): a line that trims to empty is dropped; otherwise the
trimmed line is pushed on both windows, each evicting its oldest entry when
it exceeds its maximum. -/
def addLine (b : OutputBuffers) (line : String) : OutputBuffers :=
  if line.trim.isEmpty then b
  else
    { outputLines := pushBounded maxLines b.outputLines line.trim
      allOutput := pushBounded maxErrorLines b.allOutput line.trim }

/-- Buffers after feeding a whole sequence of raw output lines, starting from
the empty buffers declared at the top of each subprocess helper. -/
def runBuffers (lines : List String) : OutputBuffers :=
  lines.foldl addLine { outputLines := [], allOutput := [] }

/-- The trimmed non-blank lines actually retained by addLine, in order. -/
def trimmedNonBlank (lines : List String) : List String :=
  (lines.map String.trim).filter fun s => !s.isEmpty

/-- Suffix of the last n entries of a list. -/
def lastN (n : Nat) (l : List String) : List String := l.drop (l.length - n)

/-- Length of a lastN suffix. -/
theorem length_lastN (n : Nat) (l : List String) : (lastN n l).length = min n l.length := by
  simp [lastN]
  omega

/-- Pushing on a window that is the lastN suffix of the lines seen so far
yields the lastN suffix of the extended line sequence. -/
theorem pushBounded_lastN (n : Nat) (acc : List String) (x : String) :
    pushBounded n (lastN n acc) x = lastN n (acc ++ [x]) := by
  rcases Nat.lt_or_ge acc.length n with h | h
  · have h0 : acc.length - n = 0 := Nat.sub_eq_zero_of_le (Nat.le_of_lt h)
    have hlen : (lastN n acc) = acc := by rw [lastN, h0, List.drop_zero]
    rw [hlen]
    have hcond : ¬ n < (acc ++ [x]).length := by simp; omega
    rw [pushBounded, if_neg hcond, lastN]
    rw [show (acc ++ [x]).length - n = 0 by simp; omega, List.drop_zero]
  · have hlen : (lastN n acc).length = n := by rw [length_lastN]; omega
    have hcond : n < ((lastN n acc) ++ [x]).length := by
      rw [List.length_append, hlen]
      simp
    rw [pushBounded, if_pos hcond, lastN]
    rw [← List.drop_append_of_le_length (by omega : acc.length - n ≤ acc.length)]
    rw [List.tail_drop, lastN]
    congr 1
    rw [List.length_append]
    simp
    omega

/-- Feeding lines into buffers that are the lastN suffixes of the retained
lines seen so far keeps both windows at the lastN suffixes. -/
theorem foldl_addLine_lastN :
    ∀ (lines acc : List String),
      lines.foldl addLine { outputLines := lastN maxLines acc, allOutput := lastN maxErrorLines acc }
        = { outputLines := lastN maxLines (acc ++ trimmedNonBlank lines),
            allOutput := lastN maxErrorLines (acc ++ trimmedNonBlank lines) } := by
  intro lines
  induction lines with
  | nil => intro acc; simp [trimmedNonBlank]
  | cons l ls ih =>
    intro acc
    by_cases hblank : l.trim.isEmpty
    · have h1 : addLine { outputLines := lastN maxLines acc, allOutput := lastN maxErrorLines acc } l
          = { outputLines := lastN maxLines acc, allOutput := lastN maxErrorLines acc } := by
        simp [addLine, hblank]
      have h2 : trimmedNonBlank (l :: ls) = trimmedNonBlank ls := by
        simp [trimmedNonBlank, hblank]
      rw [List.foldl_cons, h1, h2, ih]
    · have h1 : addLine { outputLines := lastN maxLines acc, allOutput := lastN maxErrorLines acc } l
          = { outputLines := lastN maxLines (acc ++ [l.trim]),
              allOutput := lastN maxErrorLines (acc ++ [l.trim]) } := by
        simp [addLine, hblank, pushBounded_lastN]
      have h2 : trimmedNonBlank (l :: ls) = l.trim :: trimmedNonBlank ls := by
        simp [trimmedNonBlank, hblank]
      rw [List.foldl_cons, h1, h2, ih (acc ++ [l.trim])]
      simp

/-- C9: for every sequence of raw lines fed to a subprocess step, the live
display window holds the last (at most 5) retained lines and the
error-reporting window the last (at most 50), each evicting oldest first, so
neither window ever exceeds its maximum. -/
theorem outputWindows_bounded (lines : List String) :
    (runBuffers lines).outputLines = lastN maxLines (trimmedNonBlank lines) ∧
      (runBuffers lines).allOutput = lastN maxErrorLines (trimmedNonBlank lines) ∧
      (runBuffers lines).outputLines.length ≤ 5 ∧
      (runBuffers lines).allOutput.length ≤ 50 := by
  have hbase : (runBuffers lines) =
      { outputLines := lastN maxLines ([] ++ trimmedNonBlank lines),
        allOutput := lastN maxErrorLines ([] ++ trimmedNonBlank lines) } := by
    rw [runBuffers]
    rw [show ({ outputLines := [], allOutput := [] } : OutputBuffers)
      = { outputLines := lastN maxLines [], allOutput := lastN maxErrorLines [] } from rfl]
    exact foldl_addLine_lastN lines []
  refine ⟨?_, ?_, ?_, ?_⟩
  · rw [hbase]; simp
  · rw [hbase]; simp
  · rw [hbase]
    simp only [List.nil_append, length_lastN]
    exact Nat.le_trans (Nat.min_le_left _ _) (by rw [maxLines])
  · rw [hbase]
    simp only [List.nil_append, length_lastN]
    exact Nat.le_trans (Nat.min_le_left _ _) (by rw [maxErrorLines])

/-! ## The provisioning pipeline (src/unnamed/part_002, lines 330-844) -/

/-- Credentials gathered by the auth check (part_002, lines 101-105). -/
structure Credentials where
  claudeApiKey : String
  railwayToken : String
  githubToken : String
  deriving DecidableEq, Repr

/-- Project configuration produced by the questionnaire (ProjectConfig in the
types module). -/
structure ProjectConfig where
  projectName : String
  projectSlug : String
  adminEmail : String
  adminPassword : String
  collectionDescription : String
  ftpHost : String
  ftpUsername : String
  ftpPassword : String
  ftpPath : String
  websiteUrl : String
  websitePath : String
  deriving DecidableEq, Repr

/-- Result of createGitHubRepo (github.ts, lines 7-31). -/
structure GitHubRepo where
  owner : String
  repo : String
  url : String
  cloneUrl : String
  deriving DecidableEq, Repr

/-- Result of waitForWorkflowCompletion (github.ts, lines 247-307). -/
structure WorkflowResult where
  success : Bool
  conclusion : String
  url : String
  deriving DecidableEq, Repr

/-- The createdResources state of the App component (part_002, lines
130-133): handles of the externally created resources, recorded the moment
the corresponding create call returns. -/
structure CreatedResources where
  githubRepo : Option (String × String) := none
  railwayProjectId : Option String := none
  deriving DecidableEq, Repr

/-- One compensating delete call attempted by rollback. -/
inductive DeleteCall where
  | githubRepo (owner repo : String)
  | railwayProject (projectId : String)
  deriving DecidableEq, Repr

/-- The top-level screens the pipeline itself moves the App between (the
CLIStep state has further values for the interactive screens, which the run
never sets). -/
inductive AppStep where
  | provisioning
  | complete
  | error
  deriving DecidableEq, Repr

/-- One invocation of updateStep, logged in the order the run performs
them. -/
structure UpdateCall where
  index : Nat
  status : StepStatus
  error : Option String
  details : Option (List String)
  deriving DecidableEq, Repr

/-- The finalResult state set on success (part_002, lines 651-655). -/
structure FinalResult where
  cmsUrl : String
  repoUrl : String
  websiteUrl : String
  deriving DecidableEq, Repr

/-- The live App state threaded by a provisioning run, together with the log
of updateStep calls and of the compensating delete calls attempted by
rollback. -/
structure RunState where
  steps : List ProvisioningStep
  createdResources : CreatedResources
  appStep : AppStep
  error : Option String
  finalResult : Option FinalResult
  calls : List UpdateCall
  deletions : List DeleteCall
  deriving DecidableEq, Repr

/-- The state snapshot captured by the closures of runProvisioning and
rollback: the values provisioningSteps and createdResources had in the render
that created those closures. -/
structure CapturedState where
  steps : List ProvisioningStep
  createdResources : CreatedResources
  deriving DecidableEq, Repr

deriving instance DecidableEq for Except

/-- Observed behaviour of one spawned subprocess: the raw output lines
delivered to the data handlers, and either the exit code of the close event
or the message of an error (spawn failure) event. -/
structure SubprocessRun where
  lines : List String
  exitResult : Except String Nat
  deriving DecidableEq, Repr

/-- Outcomes of every collaborator call a provisioning run can make, fixed up
front: the pipeline itself is deterministic given these. -/
structure PipelineEnv where
  dirExists : Bool
  scaffoldProject : Except String Unit
  withTestValues : Bool
  cachedFilesValid : Bool
  cachedMissingFiles : List String
  cachedFilesPath : String
  copyCachedFiles : Except String Unit
  npmInstallPayload : SubprocessRun
  npmInstallWeb : SubprocessRun
  createRailwayProject : Except String (String × String)
  provisionPostgres : Except String String
  migrationRun : SubprocessRun
  createGitHubRepo : Except String GitHubRepo
  initializeAndPushRepo : Except String Unit
  createService : Except String String
  setServiceRootDirectory : Except String Unit
  getServiceDomain : Except String String
  setServiceVariablesApp : Except String Unit
  connectServiceToGitHub : Except String Unit
  ghCliAvailable : Bool
  setGitHubSecretsViaCli : Except String Unit
  setGitHubSecretsViaApi : Except String Unit
  payloadProbe : Nat → Option Nat
  authenticatePayload : Except String String
  createPage : Except String Unit
  setServiceVariablesToken : Except String Unit
  commitAndPushWorkflow : Except String Unit
  dispatchFetch : Except String Nat
  dispatchErrorText : String
  workflowProgress : List (String × Option String)
  waitForWorkflowCompletion : Except String WorkflowResult
  deleteGitHubRepoThrows : Bool
  deleteRailwayProjectThrows : Bool

/-- The thirteen pipeline steps created at the start of runProvisioning
(part_002, lines 333-347), all pending. -/
def initialSteps : List ProvisioningStep :=
  [⟨"Scaffolding project files", .pending, none, none⟩,
   ⟨"Installing dependencies", .pending, none, none⟩,
   ⟨"Creating Railway project", .pending, none, none⟩,
   ⟨"Provisioning PostgreSQL database", .pending, none, none⟩,
   ⟨"Generating database migrations", .pending, none, none⟩,
   ⟨"Creating GitHub repository", .pending, none, none⟩,
   ⟨"Pushing code to GitHub", .pending, none, none⟩,
   ⟨"Deploying Payload CMS", .pending, none, none⟩,
   ⟨"Configuring GitHub Secrets", .pending, none, none⟩,
   ⟨"Waiting for Payload CMS to be ready (3-5 min - please be patient!)", .pending, none, none⟩,
   ⟨"Creating initial Home page", .pending, none, none⟩,
   ⟨"Enabling webhook and triggering deploy", .pending, none, none⟩,
   ⟨"Waiting for GitHub Actions workflow to complete", .pending, none, none⟩]

/-- Pre-flight error set when the target directory already exists (part_002,
lines 356-359). -/
def dirExistsMessage (projectSlug : String) : String :=
  "Directory \"" ++ projectSlug ++ "\" already exists in the current directory.\n" ++
    "Please remove it first or choose a different project name."

/-- One updateStep invocation: the functional state update is applied to the
live timeline and the call is logged. -/
def pushCall (st : RunState) (index : Nat) (status : StepStatus)
    (errorMsg : Option String) (details : Option (List String)) : RunState :=
  { st with
    steps := updateStep st.steps index status errorMsg details
    calls := st.calls ++ [⟨index, status, errorMsg, details⟩] }

/-- Apply a list of updateStep invocations in order. -/
def applyCalls (st : RunState) (cs : List UpdateCall) : RunState :=
  cs.foldl (fun s c => pushCall s c.index c.status c.error c.details) st

/-- The successive values of the live display window, one per retained line,
in the order addLine pushes them to updateStep. -/
def bufferSnapshots : OutputBuffers → List String → List (List String)
  | _, [] => []
  | b, l :: ls =>
    if l.trim.isEmpty then bufferSnapshots b ls
    else (addLine b l).outputLines :: bufferSnapshots (addLine b l) ls

/-- The in_progress detail updates a subprocess step issues, one updateStep
call per retained output line (part_002, lines 719 and 784). -/
def subprocessCalls (stepIndex : Nat) (lines : List String) : List UpdateCall :=
  (bufferSnapshots { outputLines := [], allOutput := [] } lines).map
    fun snap => ⟨stepIndex, .in_progress, none, some snap⟩

/-- Suffix appended to subprocess error messages from the retained error
window (part_002, lines 737-739 and similar). -/
def joinedOutput (allOutput : List String) : String :=
  if 0 < allOutput.length then "\n\nOutput:\n" ++ String.intercalate "\n" allOutput else ""

/-- Shallow embedding of runNpmInstall (part_002, lines 689-751): the detail
updates per retained line, and the outcome determined by the close or error
event, with the error messages built exactly as in the source. -/
def runNpmInstall (run : SubprocessRun) (stepIndex : Nat) (label : String) :
    List UpdateCall × Except String Unit :=
  (subprocessCalls stepIndex run.lines,
    match run.exitResult with
    | Except.ok 0 => Except.ok ()
    | Except.ok code =>
      Except.error ("npm install failed in " ++ label ++ " with exit code " ++ toString code ++
        joinedOutput (runBuffers run.lines).allOutput)
    | Except.error msg =>
      Except.error ("Failed to run npm install in " ++ label ++ ": " ++ msg ++
        joinedOutput (runBuffers run.lines).allOutput))

/-- Shallow embedding of runPayloadMigrationGeneration (part_002, lines
753-816), same structure as runNpmInstall with its own messages. -/
def runPayloadMigrationGeneration (run : SubprocessRun) (stepIndex : Nat) :
    List UpdateCall × Except String Unit :=
  (subprocessCalls stepIndex run.lines,
    match run.exitResult with
    | Except.ok 0 => Except.ok ()
    | Except.ok code =>
      Except.error ("Migration generation failed with exit code " ++ toString code ++
        joinedOutput (runBuffers run.lines).allOutput)
    | Except.error msg =>
      Except.error ("Failed to generate migrations: " ++ msg ++
        joinedOutput (runBuffers run.lines).allOutput))

/-- One external delete call, which may throw. -/
def attemptDelete (throws : Bool) : Except String Unit :=
  if throws then Except.error "delete failed" else Except.ok ()

/-- Shallow embedding of rollback (part_002, lines 818-844).  It reads the
createdResources snapshot captured by its closure.  Each delete is wrapped in
try/catch with an empty catch block, so the run continues identically whether
the delete throws or not, and rollback itself never throws: the function is
total and returns the list of delete calls attempted, in source order (GitHub
repository first, then Railway project). -/
def rollback (credentials : Option Credentials) (captured : CreatedResources)
    (ghThrows railwayThrows : Bool) : List DeleteCall :=
  match credentials with
  | none => []
  | some _ =>
    let ghCalls : List DeleteCall :=
      match captured.githubRepo with
      | some (owner, repo) =>
        match attemptDelete ghThrows with
        | Except.ok () => [DeleteCall.githubRepo owner repo]
        | Except.error _ => [DeleteCall.githubRepo owner repo]
      | none => []
    let railwayCalls : List DeleteCall :=
      match captured.railwayProjectId with
      | some projectId =>
        match attemptDelete railwayThrows with
        | Except.ok () => [DeleteCall.railwayProject projectId]
        | Except.error _ => [DeleteCall.railwayProject projectId]
      | none => []
    ghCalls ++ railwayCalls

/-- The catch handler of runProvisioning (part_002, lines 657-673): set the
error, look up the in_progress step in the CAPTURED timeline snapshot (the
closure reads provisioningSteps from the render that created it) and mark
that index in the live timeline when found, switch to the error screen, and
run rollback against the captured resource snapshot. -/
def handleRunFailure (credentials : Option Credentials) (captured : CapturedState)
    (ghThrows railwayThrows : Bool) (message : String) (st : RunState) : RunState :=
  let st1 := { st with error := some message }
  let st2 :=
    match captured.steps.findIdx? (fun s => s.status == StepStatus.in_progress) with
    | some currentIdx => pushCall st1 currentIdx .error (some message) none
    | none => st1
  let st3 := { st2 with appStep := AppStep.error }
  { st3 with deletions := st3.deletions ++
      rollback credentials captured.createdResources ghThrows railwayThrows }

/-- Success epilogue of the try block (part_002, lines 651-656): set
finalResult and move to the complete screen. -/
def provFinish (cfg : ProjectConfig) (repo : GitHubRepo) (serviceUrl : String)
    (st : RunState) : RunState × Option String :=
  ({ st with
      finalResult := some ⟨serviceUrl ++ "/admin", repo.url, cfg.websiteUrl⟩
      appStep := AppStep.complete }, none)

/-- Step 12 (part_002, lines 617-649): wait for the GitHub Actions workflow,
forwarding each onProgress report as an in_progress detail update; a failed
workflow conclusion throws inside the try and both it and a thrown poll are
re-wrapped by the catch of the step.  onProgress conclusions are modelled as
none for undefined (the caller passes conclusion only when present). -/
def provStep12 (env : PipelineEnv) (cfg : ProjectConfig) (repo : GitHubRepo)
    (serviceUrl : String) (st : RunState) : RunState × Option String :=
  let st1 := pushCall st 12 .in_progress none none
  let st2 := applyCalls st1 (env.workflowProgress.map fun r =>
    ⟨12, .in_progress, none, some (("Status: " ++ r.1) ::
      (match r.2 with
       | some c => ["Conclusion: " ++ c]
       | none => []))⟩)
  match env.waitForWorkflowCompletion with
  | Except.error msg =>
    (st2, some ("Failed to complete GitHub Actions workflow: " ++ msg))
  | Except.ok workflowResult =>
    if workflowResult.success then
      provFinish cfg repo serviceUrl (pushCall st2 12 .complete none none)
    else
      (st2, some ("Failed to complete GitHub Actions workflow: " ++
        ("GitHub Actions workflow failed with conclusion: " ++ workflowResult.conclusion ++
          ". View details at: " ++ workflowResult.url)))

/-- Step 11 (part_002, lines 576-615): set GITHUB_TOKEN, commit and push the
workflow file, then POST a repository_dispatch; a status other than 204
throws with the response text. -/
def provStep11 (env : PipelineEnv) (cfg : ProjectConfig) (repo : GitHubRepo)
    (serviceUrl : String) (st : RunState) : RunState × Option String :=
  let st1 := pushCall st 11 .in_progress none none
  match env.setServiceVariablesToken with
  | Except.error msg => (st1, some msg)
  | Except.ok () =>
    match env.commitAndPushWorkflow with
    | Except.error msg => (st1, some msg)
    | Except.ok () =>
      match env.dispatchFetch with
      | Except.error msg => (st1, some msg)
      | Except.ok status =>
        if status = 204 then
          provStep12 env cfg repo serviceUrl (pushCall st1 11 .complete none none)
        else
          (st1, some ("Failed to trigger deploy: " ++ toString status ++ " " ++
            env.dispatchErrorText))

/-- Step 10 (part_002, lines 548-574): authenticate against Payload and
create the Home page; any thrown error is wrapped by the catch of the
step. -/
def provStep10 (env : PipelineEnv) (cfg : ProjectConfig) (repo : GitHubRepo)
    (serviceUrl : String) (st : RunState) : RunState × Option String :=
  let st1 := pushCall st 10 .in_progress none none
  match env.authenticatePayload with
  | Except.error msg => (st1, some ("Failed to create Home page: " ++ msg))
  | Except.ok _token =>
    match env.createPage with
    | Except.error msg => (st1, some ("Failed to create Home page: " ++ msg))
    | Except.ok () => provStep11 env cfg repo serviceUrl (pushCall st1 10 .complete none none)

/-- Step 9 (part_002, lines 539-546): run waitForPayloadReady with its
default polling parameters against the service URL; a timeout is wrapped by
the catch of the step. -/
def provStep9 (env : PipelineEnv) (cfg : ProjectConfig) (repo : GitHubRepo)
    (serviceUrl : String) (st : RunState) : RunState × Option String :=
  let st1 := pushCall st 9 .in_progress none none
  match (waitForPayloadReadyDefaults env.payloadProbe).outcome with
  | Except.error msg => (st1, some ("Payload CMS did not become ready: " ++ msg))
  | Except.ok () => provStep10 env cfg repo serviceUrl (pushCall st1 9 .complete none none)

/-- Step 8 (part_002, lines 514-537): set the GitHub secrets through the gh
CLI when available, through the API otherwise. -/
def provStep8 (env : PipelineEnv) (cfg : ProjectConfig) (repo : GitHubRepo)
    (serviceUrl : String) (st : RunState) : RunState × Option String :=
  let st1 := pushCall st 8 .in_progress none none
  match (if env.ghCliAvailable then env.setGitHubSecretsViaCli else env.setGitHubSecretsViaApi) with
  | Except.error msg => (st1, some msg)
  | Except.ok () => provStep9 env cfg repo serviceUrl (pushCall st1 8 .complete none none)

/-- Step 7 (part_002, lines 456-512): create the Railway service, set its
root directory, read its domain, set the application variables, and connect
the GitHub repository. -/
def provStep7 (env : PipelineEnv) (cfg : ProjectConfig) (repo : GitHubRepo)
    (st : RunState) : RunState × Option String :=
  let st1 := pushCall st 7 .in_progress none none
  match env.createService with
  | Except.error msg => (st1, some msg)
  | Except.ok _serviceId =>
    match env.setServiceRootDirectory with
    | Except.error msg => (st1, some msg)
    | Except.ok () =>
      match env.getServiceDomain with
      | Except.error msg => (st1, some msg)
      | Except.ok serviceUrl =>
        match env.setServiceVariablesApp with
        | Except.error msg => (st1, some msg)
        | Except.ok () =>
          match env.connectServiceToGitHub with
          | Except.error msg => (st1, some msg)
          | Except.ok () => provStep8 env cfg repo serviceUrl (pushCall st1 7 .complete none none)

/-- Step 6 (part_002, lines 446-454): push the generated code to the new
repository. -/
def provStep6 (env : PipelineEnv) (cfg : ProjectConfig) (repo : GitHubRepo)
    (st : RunState) : RunState × Option String :=
  let st1 := pushCall st 6 .in_progress none none
  match env.initializeAndPushRepo with
  | Except.error msg => (st1, some msg)
  | Except.ok () => provStep7 env cfg repo (pushCall st1 6 .complete none none)

/-- Step 5 (part_002, lines 434-444): create the GitHub repository and record
its handle in the live createdResources the moment the call returns. -/
def provStep5 (env : PipelineEnv) (cfg : ProjectConfig) (st : RunState) :
    RunState × Option String :=
  let st1 := pushCall st 5 .in_progress none none
  match env.createGitHubRepo with
  | Except.error msg => (st1, some msg)
  | Except.ok githubRepo =>
    let st2 := { st1 with createdResources :=
      { st1.createdResources with githubRepo := some (githubRepo.owner, githubRepo.repo) } }
    provStep6 env cfg githubRepo (pushCall st2 5 .complete none none)

/-- Step 4 (part_002, lines 428-432): generate the database migrations in a
subprocess, streaming its output into detail updates. -/
def provStep4 (env : PipelineEnv) (cfg : ProjectConfig) (st : RunState) :
    RunState × Option String :=
  let st1 := pushCall st 4 .in_progress none none
  let r := runPayloadMigrationGeneration env.migrationRun 4
  let st2 := applyCalls st1 r.1
  match r.2 with
  | Except.error msg => (st2, some msg)
  | Except.ok () => provStep5 env cfg (pushCall st2 4 .complete none none)

/-- Step 3 (part_002, lines 419-426): provision PostgreSQL. -/
def provStep3 (env : PipelineEnv) (cfg : ProjectConfig) (st : RunState) :
    RunState × Option String :=
  let st1 := pushCall st 3 .in_progress none none
  match env.provisionPostgres with
  | Except.error msg => (st1, some msg)
  | Except.ok _databaseUrl => provStep4 env cfg (pushCall st1 3 .complete none none)

/-- Step 2 (part_002, lines 407-417): create the Railway project and record
its id in the live createdResources the moment the call returns. -/
def provStep2 (env : PipelineEnv) (cfg : ProjectConfig) (st : RunState) :
    RunState × Option String :=
  let st1 := pushCall st 2 .in_progress none none
  match env.createRailwayProject with
  | Except.error msg => (st1, some msg)
  | Except.ok (projectId, _environmentId) =>
    let st2 := { st1 with createdResources :=
      { st1.createdResources with railwayProjectId := some projectId } }
    provStep3 env cfg (pushCall st2 2 .complete none none)

/-- Step 1 (part_002, lines 379-405): with test values, validate and copy the
cached installs; otherwise run npm install in payload and then in web,
streaming output into detail updates. -/
def provStep1 (env : PipelineEnv) (cfg : ProjectConfig) (st : RunState) :
    RunState × Option String :=
  let st1 := pushCall st 1 .in_progress none none
  if env.withTestValues then
    if env.cachedFilesValid then
      match env.copyCachedFiles with
      | Except.error msg => (st1, some msg)
      | Except.ok () => provStep2 env cfg (pushCall st1 1 .complete none none)
    else
      (st1, some ("Missing cached files for --withTestValues mode:\n" ++
        String.intercalate "\n" env.cachedMissingFiles ++
        "\n\nExpected cache location: " ++ env.cachedFilesPath))
  else
    let r1 := runNpmInstall env.npmInstallPayload 1 "payload"
    let st2 := applyCalls st1 r1.1
    match r1.2 with
    | Except.error msg => (st2, some msg)
    | Except.ok () =>
      let r2 := runNpmInstall env.npmInstallWeb 1 "web"
      let st3 := applyCalls st2 r2.1
      match r2.2 with
      | Except.error msg => (st3, some msg)
      | Except.ok () => provStep2 env cfg (pushCall st3 1 .complete none none)

/-- Step 0 (part_002, lines 364-377): scaffold the project files. -/
def provStep0 (env : PipelineEnv) (cfg : ProjectConfig) (st : RunState) :
    RunState × Option String :=
  let st1 := pushCall st 0 .in_progress none none
  match env.scaffoldProject with
  | Except.error msg => (st1, some msg)
  | Except.ok () => provStep1 env cfg (pushCall st1 0 .complete none none)

/-- Shallow embedding of runProvisioning (part_002, lines 330-674): guard on
credentials and config, reset the timeline to the thirteen pending steps,
fail pre-flight when the target directory exists, otherwise run the try block
step by step; a thrown step error goes to the catch handler, which uses the
captured snapshot. -/
def runProvisioning (env : PipelineEnv) (credentials : Option Credentials)
    (projectConfig : Option ProjectConfig) (captured : CapturedState)
    (s0 : RunState) : RunState :=
  match credentials, projectConfig with
  | some creds, some cfg =>
    let st := { s0 with steps := initialSteps }
    if env.dirExists then
      { st with appStep := AppStep.error, error := some (dirExistsMessage cfg.projectSlug) }
    else
      match provStep0 env cfg st with
      | (st1, none) => st1
      | (st1, some msg) =>
        handleRunFailure (some creds) captured env.deleteGitHubRepoThrows
          env.deleteRailwayProjectThrows msg st1
  | _, _ => s0

/-- The run state at the moment the provisioning effect fires on a first run:
nothing set yet. -/
def initialRunState : RunState :=
  { steps := []
    createdResources := {}
    appStep := AppStep.provisioning
    error := none
    finalResult := none
    calls := []
    deletions := [] }

/-- The snapshot the closures capture on a first run: provisioningSteps was
still the initial empty array and createdResources the empty record when the
render that launched the run took place. -/
def canonicalCaptured : CapturedState :=
  { steps := [], createdResources := {} }

/-- A provisioning run as the App actually performs it: credentials and
config present, first run, so the captured snapshot is the initial state. -/
def canonicalRun (env : PipelineEnv) (creds : Credentials) (cfg : ProjectConfig) : RunState :=
  runProvisioning env (some creds) (some cfg) canonicalCaptured initialRunState

/-! ## Concrete runs -/

/-- Environment in which every collaborator call succeeds. -/
def okEnv : PipelineEnv :=
  { dirExists := false
    scaffoldProject := Except.ok ()
    withTestValues := false
    cachedFilesValid := true
    cachedMissingFiles := []
    cachedFilesPath := "/home/user/.config/dyte-cms-starter/testvalues"
    copyCachedFiles := Except.ok ()
    npmInstallPayload := ⟨[], Except.ok 0⟩
    npmInstallWeb := ⟨[], Except.ok 0⟩
    createRailwayProject := Except.ok ("proj-1", "env-1")
    provisionPostgres := Except.ok "postgres://db"
    migrationRun := ⟨[], Except.ok 0⟩
    createGitHubRepo := Except.ok ⟨"octo", "my-site", "https://github.com/octo/my-site",
      "https://github.com/octo/my-site.git"⟩
    initializeAndPushRepo := Except.ok ()
    createService := Except.ok "svc-1"
    setServiceRootDirectory := Except.ok ()
    getServiceDomain := Except.ok "https://my-site.up.railway.app"
    setServiceVariablesApp := Except.ok ()
    connectServiceToGitHub := Except.ok ()
    ghCliAvailable := true
    setGitHubSecretsViaCli := Except.ok ()
    setGitHubSecretsViaApi := Except.ok ()
    payloadProbe := fun _ => some 200
    authenticatePayload := Except.ok "jwt-token"
    createPage := Except.ok ()
    setServiceVariablesToken := Except.ok ()
    commitAndPushWorkflow := Except.ok ()
    dispatchFetch := Except.ok 204
    dispatchErrorText := ""
    workflowProgress := []
    waitForWorkflowCompletion := Except.ok ⟨true, "success",
      "https://github.com/octo/my-site/actions/runs/1"⟩
    deleteGitHubRepoThrows := false
    deleteRailwayProjectThrows := false }

/-- Concrete credentials for the sample runs. -/
def testCreds : Credentials := ⟨"sk-ant-key", "railway-token", "gh-token"⟩

/-- Concrete configuration for the sample runs. -/
def testConfig : ProjectConfig :=
  ⟨"My Site", "my-site", "admin@example.com", "pw", "", "ftp.example.com", "ftp-user",
    "ftp-pw", "/www/my-site", "https://example.com/my-site", "/my-site"⟩

/-- Environment whose database provisioning call (step 3) throws, after the
Railway project of step 2 was created and recorded. -/
def dbFailEnv : PipelineEnv := { okEnv with provisionPostgres := Except.error "database exploded" }

/-- Environment whose push to GitHub (step 6) throws, after both the Railway
project (step 2) and the GitHub repository (step 5) were created and
recorded. -/
def pushFailEnv : PipelineEnv :=
  { okEnv with initializeAndPushRepo := Except.error "push rejected" }

/-- What rollback attempts when its captured snapshot actually holds both
handles: both deletions, GitHub repository first, then Railway project,
independently of whether either delete throws (each is wrapped in its own
try/catch with an empty handler). -/
theorem rollback_attempts_all (creds : Credentials) (owner repo projectId : String)
    (ghThrows railwayThrows : Bool) :
    rollback (some creds) ⟨some (owner, repo), some projectId⟩ ghThrows railwayThrows
      = [DeleteCall.githubRepo owner repo, DeleteCall.railwayProject projectId] := by
  cases ghThrows <;> cases railwayThrows <;> rfl

/-- C1: exhibit of the run in which database provisioning (step 3) throws
with message "database exploded".  The run stops (steps 4-12 stay pending),
rollback is invoked and the outcome carries the original step error, but the
failing step is never marked error: the catch handler looks for the
in_progress entry in the provisioningSteps array captured by its closure,
which still holds the initial empty array, finds no index, and leaves step 3
in_progress with no error entry anywhere in the timeline. -/
theorem provisioning_failure_leaves_step_in_progress :
    (canonicalRun dbFailEnv testCreds testConfig).error = some "database exploded" ∧
      (canonicalRun dbFailEnv testCreds testConfig).appStep = AppStep.error ∧
      ((canonicalRun dbFailEnv testCreds testConfig).steps.map ProvisioningStep.status)
        = [.complete, .complete, .complete, .in_progress, .pending, .pending, .pending,
           .pending, .pending, .pending, .pending, .pending, .pending] ∧
      (∀ s ∈ (canonicalRun dbFailEnv testCreds testConfig).steps, s.error = none) := by
  refine ⟨by decide, by decide, by decide, by decide⟩

/-- C2: exhibit of the same failing run from the rollback side.  When step 3
throws, the live Resource Tracker holds one recorded handle (the Railway
project id of step 2), rollback runs without throwing and the caller keeps
the original pipeline error — but rollback reads the createdResources
snapshot captured by its closure, which is still empty, so it attempts zero
of the recorded deletions. -/
theorem rollback_stale_snapshot_deletes_nothing :
    (canonicalRun dbFailEnv testCreds testConfig).createdResources
        = { githubRepo := none, railwayProjectId := some "proj-1" } ∧
      (canonicalRun dbFailEnv testCreds testConfig).error = some "database exploded" ∧
      (canonicalRun dbFailEnv testCreds testConfig).deletions = [] := by
  refine ⟨by decide, by decide, by decide⟩

/-- C3: exhibit of a run that fails at the push step (step 6), after both the
Railway project (recorded at step 2) and the GitHub repository (recorded at
step 5) are in the live Resource Tracker.  The claim requires rollback to
compensate them in reverse order (GitHub repository before Railway project);
the rollback body would indeed issue the deletes in that order (see
rollback_attempts_all), but it reads the empty captured snapshot and
compensates neither handle. -/
theorem provisioning_failure_rollback_deletes_nothing :
    (canonicalRun pushFailEnv testCreds testConfig).createdResources
        = { githubRepo := some ("octo", "my-site"), railwayProjectId := some "proj-1" } ∧
      (canonicalRun pushFailEnv testCreds testConfig).error = some "push rejected" ∧
      (canonicalRun pushFailEnv testCreds testConfig).deletions = [] := by
  refine ⟨by decide, by decide, by decide⟩

/-- C5: when the target directory already exists, the run fails before step
0 with the distinct pre-flight message; every step stays pending, no
updateStep call is made, no resource is recorded, and rollback is never
invoked. -/
theorem preflight_dir_exists (env : PipelineEnv) (creds : Credentials) (cfg : ProjectConfig)
    (hdir : env.dirExists = true) :
    (canonicalRun env creds cfg).appStep = AppStep.error ∧
      (canonicalRun env creds cfg).error = some (dirExistsMessage cfg.projectSlug) ∧
      (canonicalRun env creds cfg).steps = initialSteps ∧
      (∀ s ∈ (canonicalRun env creds cfg).steps, s.status = StepStatus.pending) ∧
      (canonicalRun env creds cfg).createdResources = { githubRepo := none, railwayProjectId := none } ∧
      (canonicalRun env creds cfg).deletions = [] ∧
      (canonicalRun env creds cfg).calls = [] := by
  have h : canonicalRun env creds cfg =
      { initialRunState with
        steps := initialSteps
        appStep := AppStep.error
        error := some (dirExistsMessage cfg.projectSlug) } := by
    simp [canonicalRun, runProvisioning, hdir]
  rw [h]
  refine ⟨rfl, rfl, rfl, ?_, rfl, rfl, rfl⟩
  show ∀ s ∈ initialSteps, s.status = StepStatus.pending
  decide

/-- Environment for the pre-flight witness: the target directory exists. -/
def dirExistsEnv : PipelineEnv := { okEnv with dirExists := true }

/-- Witness for C5 at the concrete pre-flight environment. -/
theorem preflight_dir_exists_witness :
    (canonicalRun dirExistsEnv testCreds testConfig).appStep = AppStep.error ∧
      (canonicalRun dirExistsEnv testCreds testConfig).error
        = some (dirExistsMessage testConfig.projectSlug) ∧
      (canonicalRun dirExistsEnv testCreds testConfig).steps = initialSteps ∧
      (∀ s ∈ (canonicalRun dirExistsEnv testCreds testConfig).steps,
        s.status = StepStatus.pending) ∧
      (canonicalRun dirExistsEnv testCreds testConfig).createdResources
        = { githubRepo := none, railwayProjectId := none } ∧
      (canonicalRun dirExistsEnv testCreds testConfig).deletions = [] ∧
      (canonicalRun dirExistsEnv testCreds testConfig).calls = [] :=
  preflight_dir_exists dirExistsEnv testCreds testConfig rfl

/-! ## Temporal behaviour of a run (claim C4) -/

/-- Frame property of one updateStep call, used to track entries the run
never touches. -/
theorem updateStep_getElem?_ne (steps : List ProvisioningStep) (i : Nat) (status : StepStatus)
    (errorMsg : Option String) (details : Option (List String)) (j : Nat) (hj : j ≠ i) :
    (updateStep steps i status errorMsg details)[j]? = steps[j]? := by
  simp [updateStep, List.getElem?_mapIdx, hj]

/-- The indices of the steps a run ever marked in_progress. -/
def startedIndices (calls : List UpdateCall) : List Nat :=
  calls.filterMap fun c => if c.status == StepStatus.in_progress then some c.index else none

instance : LawfulBEq StepStatus where
  eq_of_beq := by
    intro a b h
    cases a <;> cases b <;> first | rfl | exact absurd h (by decide)
  rfl := by
    intro a
    cases a <;> rfl

/-- Membership in startedIndices unfolded. -/
theorem mem_startedIndices {cs : List UpdateCall} {i : Nat} :
    i ∈ startedIndices cs ↔ ∃ c ∈ cs, c.status = StepStatus.in_progress ∧ c.index = i := by
  rw [startedIndices, List.mem_filterMap]
  constructor
  · rintro ⟨c, hc, hf⟩
    by_cases hs : c.status == StepStatus.in_progress
    · rw [if_pos hs] at hf
      exact ⟨c, hc, beq_iff_eq.mp hs, Option.some_inj.mp hf⟩
    · rw [if_neg hs] at hf
      cases hf
  · rintro ⟨c, hc, hs, hi⟩
    refine ⟨c, hc, ?_⟩
    rw [if_pos (beq_iff_eq.mpr hs), hi]

/-- The run errored, step k was started, and no later step ever was: step k
is the failing step. -/
def failsAtStep (r : RunState) (k : Nat) : Prop :=
  r.error.isSome = true ∧ k ∈ startedIndices r.calls ∧ ∀ i ∈ startedIndices r.calls, i ≤ k

/-- All successive live timeline states of a run: the reset to the thirteen
pending steps followed by the effect of every updateStep call in order. -/
def timelineStates (r : RunState) : List (List ProvisioningStep) :=
  r.calls.scanl (fun tl c => updateStep tl c.index c.status c.error c.details) initialSteps

/-- Entry j is pending in every timeline state of the run. -/
def stepStaysPending (r : RunState) (j : Nat) : Prop :=
  ∀ tl ∈ timelineStates r, ∀ s, tl[j]? = some s → s.status = StepStatus.pending

/-- A sequence of updateStep calls that never touches index j keeps entry j
at its initial value in every intermediate timeline. -/
theorem scanl_pending (j : Nat) :
    ∀ (calls : List UpdateCall) (tl : List ProvisioningStep),
      (∀ c ∈ calls, c.index ≠ j) →
      (∀ s, tl[j]? = some s → s.status = StepStatus.pending) →
      ∀ tl2 ∈ calls.scanl (fun tl c => updateStep tl c.index c.status c.error c.details) tl,
        ∀ s, tl2[j]? = some s → s.status = StepStatus.pending := by
  intro calls
  induction calls with
  | nil =>
    intro tl _ h0 tl2 htl2
    rw [List.scanl_nil] at htl2
    rw [List.mem_singleton] at htl2
    subst htl2
    exact h0
  | cons c cs ih =>
    intro tl hne h0 tl2 htl2
    rw [List.scanl_cons, List.singleton_append, List.mem_cons] at htl2
    rcases htl2 with h | h
    · subst h
      exact h0
    · refine ih (updateStep tl c.index c.status c.error c.details) ?_ ?_ tl2 h
      · intro c2 hc2
        exact hne c2 (List.mem_cons_of_mem _ hc2)
      · intro s hs
        rw [updateStep_getElem?_ne tl c.index c.status c.error c.details j
          (Ne.symm (hne c (List.mem_cons_self _ _)))] at hs
        exact h0 s hs

/-- The calls a pipeline suffix starting at step n appends: all at indices
between n and the last started step m, with m itself marked in_progress, and
the error state untouched. -/
def CallsSpec (n : Nat) (st : RunState) (r : RunState × Option String) : Prop :=
  ∃ Δ m, r.1.calls = st.calls ++ Δ ∧ n ≤ m ∧
    (∀ c ∈ Δ, n ≤ c.index ∧ c.index ≤ m) ∧
    (∃ c ∈ Δ, c.index = m ∧ c.status = StepStatus.in_progress) ∧
    r.1.error = st.error

/-- applyCalls appends exactly its list to the log. -/
theorem applyCalls_calls : ∀ (cs : List UpdateCall) (st : RunState),
    (applyCalls st cs).calls = st.calls ++ cs := by
  intro cs
  induction cs with
  | nil => intro st; simp [applyCalls]
  | cons c cs ih =>
    intro st
    rw [show applyCalls st (c :: cs)
      = applyCalls (pushCall st c.index c.status c.error c.details) cs from rfl, ih]
    simp [pushCall]

/-- applyCalls leaves the error state untouched. -/
theorem applyCalls_error : ∀ (cs : List UpdateCall) (st : RunState),
    (applyCalls st cs).error = st.error := by
  intro cs
  induction cs with
  | nil => intro st; rfl
  | cons c cs ih =>
    intro st
    rw [show applyCalls st (c :: cs)
      = applyCalls (pushCall st c.index c.status c.error c.details) cs from rfl, ih]
    rfl

/-- CallsSpec for a step that fails right after its in_progress mark and
possibly some detail updates at its own index. -/
theorem callsSpec_fail_extra (n : Nat) (st : RunState) (msg : String) (extra : List UpdateCall)
    (hextra : ∀ c ∈ extra, c.index = n) :
    CallsSpec n st (applyCalls (pushCall st n .in_progress none none) extra, some msg) := by
  refine ⟨⟨n, .in_progress, none, none⟩ :: extra, n, ?_, Nat.le_refl n, ?_, ?_, ?_⟩
  · rw [applyCalls_calls]
    simp [pushCall]
  · intro c hc
    rcases List.mem_cons.mp hc with h | h
    · subst h
      exact ⟨Nat.le_refl n, Nat.le_refl n⟩
    · rw [hextra c h]
      exact ⟨Nat.le_refl n, Nat.le_refl n⟩
  · exact ⟨⟨n, .in_progress, none, none⟩, List.mem_cons_self _ _, rfl, rfl⟩
  · rw [applyCalls_error]
    rfl

/-- CallsSpec for a step that fails right after its in_progress mark. -/
theorem callsSpec_fail (n : Nat) (st : RunState) (msg : String) :
    CallsSpec n st (pushCall st n .in_progress none none, some msg) := by
  have h := callsSpec_fail_extra n st msg [] (by intro c hc; cases hc)
  rw [show applyCalls (pushCall st n .in_progress none none) []
    = pushCall st n .in_progress none none from rfl] at h
  exact h

/-- CallsSpec composes: a step that appends its own calls at index n and then
hands over to the rest of the pipeline starting at n2 ≥ n satisfies the spec
at n. -/
theorem callsSpec_chain (n n2 : Nat) (st stMid : RunState) (r : RunState × Option String)
    (own : List UpdateCall)
    (hmid : stMid.calls = st.calls ++ own)
    (herr : stMid.error = st.error)
    (hown : ∀ c ∈ own, c.index = n)
    (hn : n ≤ n2)
    (hspec : CallsSpec n2 stMid r) :
    CallsSpec n st r := by
  obtain ⟨Δ, m, hcalls, hm, hb, hmem, herr2⟩ := hspec
  refine ⟨own ++ Δ, m, ?_, by omega, ?_, ?_, by rw [herr2, herr]⟩
  · rw [hcalls, hmid, List.append_assoc]
  · intro c hc
    rcases List.mem_append.mp hc with h | h
    · have h2 := hown c h
      constructor <;> omega
    · have h2 := hb c h
      constructor <;> omega
  · obtain ⟨c, hc, h1, h2⟩ := hmem
    exact ⟨c, List.mem_append_right _ hc, h1, h2⟩

/-- Every detail update of a subprocess step carries the step's own index. -/
theorem subprocessCalls_index (i : Nat) (lines : List String) :
    ∀ c ∈ subprocessCalls i lines, c.index = i := by
  intro c hc
  rcases List.mem_map.mp hc with ⟨snap, _, rfl⟩
  rfl

/-- pushCall appends exactly one logged call. -/
theorem pushCall_calls (st : RunState) (i : Nat) (s : StepStatus) (e : Option String)
    (d : Option (List String)) : (pushCall st i s e d).calls = st.calls ++ [⟨i, s, e, d⟩] := rfl

/-- pushCall leaves the error state untouched. -/
theorem pushCall_error (st : RunState) (i : Nat) (s : StepStatus) (e : Option String)
    (d : Option (List String)) : (pushCall st i s e d).error = st.error := rfl

/-- provFinish logs no call. -/
theorem provFinish_calls (cfg : ProjectConfig) (repo : GitHubRepo) (serviceUrl : String)
    (st : RunState) : (provFinish cfg repo serviceUrl st).1.calls = st.calls := rfl

/-- provFinish leaves the error state untouched. -/
theorem provFinish_error (cfg : ProjectConfig) (repo : GitHubRepo) (serviceUrl : String)
    (st : RunState) : (provFinish cfg repo serviceUrl st).1.error = st.error := rfl

/-- CallsSpec for a step that fails with an arbitrary set of own calls. -/
theorem callsSpec_fail_general (n : Nat) (st stF : RunState) (msg : String)
    (own : List UpdateCall)
    (hcalls : stF.calls = st.calls ++ own)
    (herr : stF.error = st.error)
    (hown : ∀ c ∈ own, c.index = n)
    (hip : (⟨n, StepStatus.in_progress, none, none⟩ : UpdateCall) ∈ own) :
    CallsSpec n st (stF, some msg) := by
  refine ⟨own, n, hcalls, Nat.le_refl n, ?_,
    ⟨⟨n, .in_progress, none, none⟩, hip, rfl, rfl⟩, herr⟩
  intro c hc
  rw [hown c hc]
  exact ⟨Nat.le_refl n, Nat.le_refl n⟩

/-- Own calls of a subprocess-backed step together with its bracketing
in_progress and complete marks all carry the step's index. -/
theorem own_subproc_index (n : Nat) (lines : List String) :
    ∀ c ∈ (⟨n, StepStatus.in_progress, none, none⟩ : UpdateCall) ::
      (subprocessCalls n lines ++ [⟨n, StepStatus.complete, none, none⟩]), c.index = n := by
  intro c hc
  rcases List.mem_cons.mp hc with h | h
  · subst h; rfl
  · rcases List.mem_append.mp h with h2 | h2
    · exact subprocessCalls_index n lines c h2
    · rw [List.mem_singleton] at h2; subst h2; rfl

/-- Call-log shape of the pipeline suffix starting at step 12. -/
theorem provStep12_spec (env : PipelineEnv) (cfg : ProjectConfig) (repo : GitHubRepo)
    (serviceUrl : String) (st : RunState) :
    CallsSpec 12 st (provStep12 env cfg repo serviceUrl st) := by
  have hP : ∀ c ∈ (env.workflowProgress.map fun r =>
      (⟨12, StepStatus.in_progress, none, some (("Status: " ++ r.1) ::
        (match r.2 with
         | some c => ["Conclusion: " ++ c]
         | none => []))⟩ : UpdateCall)), c.index = 12 := by
    intro c hc
    rcases List.mem_map.mp hc with ⟨r, _, rfl⟩
    rfl
  unfold provStep12
  rcases env.waitForWorkflowCompletion with msg | wr
  · exact callsSpec_fail_extra 12 st _ _ hP
  · rcases hs : wr.success with _ | _
    · simp only [hs, Bool.false_eq_true, if_false]
      exact callsSpec_fail_extra 12 st _ _ hP
    · simp only [hs, if_true]
      refine ⟨⟨12, StepStatus.in_progress, none, none⟩ ::
        ((env.workflowProgress.map fun r =>
          (⟨12, StepStatus.in_progress, none, some (("Status: " ++ r.1) ::
            (match r.2 with
             | some c => ["Conclusion: " ++ c]
             | none => []))⟩ : UpdateCall)) ++ [⟨12, StepStatus.complete, none, none⟩]),
        12, ?_, Nat.le_refl 12, ?_, ?_, ?_⟩
      · rw [provFinish_calls, pushCall_calls, applyCalls_calls, pushCall_calls]
        simp
      · intro c hc
        rcases List.mem_cons.mp hc with h | h
        · subst h; exact ⟨Nat.le_refl 12, Nat.le_refl 12⟩
        · rcases List.mem_append.mp h with h2 | h2
          · rw [hP c h2]; exact ⟨Nat.le_refl 12, Nat.le_refl 12⟩
          · rw [List.mem_singleton] at h2; subst h2
            exact ⟨Nat.le_refl 12, Nat.le_refl 12⟩
      · exact ⟨⟨12, .in_progress, none, none⟩, List.mem_cons_self _ _, rfl, rfl⟩
      · rw [provFinish_error, pushCall_error, applyCalls_error, pushCall_error]

/-- Call-log shape of the pipeline suffix starting at step 11. -/
theorem provStep11_spec (env : PipelineEnv) (cfg : ProjectConfig) (repo : GitHubRepo)
    (serviceUrl : String) (st : RunState) :
    CallsSpec 11 st (provStep11 env cfg repo serviceUrl st) := by
  unfold provStep11
  rcases env.setServiceVariablesToken with msg | ⟨⟩
  · exact callsSpec_fail 11 st msg
  · rcases env.commitAndPushWorkflow with msg | ⟨⟩
    · exact callsSpec_fail 11 st msg
    · rcases env.dispatchFetch with msg | status
      · exact callsSpec_fail 11 st msg
      · by_cases hstat : status = 204
        · subst hstat
          simp only [reduceIte]
          exact callsSpec_chain 11 12 st
            (pushCall (pushCall st 11 .in_progress none none) 11 .complete none none)
            (provStep12 env cfg repo serviceUrl
              (pushCall (pushCall st 11 .in_progress none none) 11 .complete none none))
            [⟨11, .in_progress, none, none⟩, ⟨11, .complete, none, none⟩]
            (by simp [pushCall]) rfl (by decide) (by omega)
            (provStep12_spec env cfg repo serviceUrl _)
        · simp only [hstat, if_false]
          exact callsSpec_fail 11 st _

/-- Call-log shape of the pipeline suffix starting at step 10. -/
theorem provStep10_spec (env : PipelineEnv) (cfg : ProjectConfig) (repo : GitHubRepo)
    (serviceUrl : String) (st : RunState) :
    CallsSpec 10 st (provStep10 env cfg repo serviceUrl st) := by
  unfold provStep10
  rcases env.authenticatePayload with msg | token
  · exact callsSpec_fail 10 st _
  · rcases env.createPage with msg | ⟨⟩
    · exact callsSpec_fail 10 st _
    · exact callsSpec_chain 10 11 st
        (pushCall (pushCall st 10 .in_progress none none) 10 .complete none none)
        (provStep11 env cfg repo serviceUrl
          (pushCall (pushCall st 10 .in_progress none none) 10 .complete none none))
        [⟨10, .in_progress, none, none⟩, ⟨10, .complete, none, none⟩]
        (by simp [pushCall]) rfl (by decide) (by omega)
        (provStep11_spec env cfg repo serviceUrl _)

/-- Call-log shape of the pipeline suffix starting at step 9. -/
theorem provStep9_spec (env : PipelineEnv) (cfg : ProjectConfig) (repo : GitHubRepo)
    (serviceUrl : String) (st : RunState) :
    CallsSpec 9 st (provStep9 env cfg repo serviceUrl st) := by
  unfold provStep9
  rcases (waitForPayloadReadyDefaults env.payloadProbe).outcome with msg | ⟨⟩
  · exact callsSpec_fail 9 st _
  · exact callsSpec_chain 9 10 st
      (pushCall (pushCall st 9 .in_progress none none) 9 .complete none none)
      (provStep10 env cfg repo serviceUrl
        (pushCall (pushCall st 9 .in_progress none none) 9 .complete none none))
      [⟨9, .in_progress, none, none⟩, ⟨9, .complete, none, none⟩]
      (by simp [pushCall]) rfl (by decide) (by omega)
      (provStep10_spec env cfg repo serviceUrl _)

/-- Call-log shape of the pipeline suffix starting at step 8. -/
theorem provStep8_spec (env : PipelineEnv) (cfg : ProjectConfig) (repo : GitHubRepo)
    (serviceUrl : String) (st : RunState) :
    CallsSpec 8 st (provStep8 env cfg repo serviceUrl st) := by
  unfold provStep8
  have hnext := fun st2 => provStep9_spec env cfg repo serviceUrl st2
  rcases env.ghCliAvailable with _ | _
  · rcases env.setGitHubSecretsViaApi with msg | ⟨⟩
    · exact callsSpec_fail 8 st _
    · exact callsSpec_chain 8 9 st
        (pushCall (pushCall st 8 .in_progress none none) 8 .complete none none)
        (provStep9 env cfg repo serviceUrl
          (pushCall (pushCall st 8 .in_progress none none) 8 .complete none none))
        [⟨8, .in_progress, none, none⟩, ⟨8, .complete, none, none⟩]
        (by simp [pushCall]) rfl (by decide) (by omega) (hnext _)
  · rcases env.setGitHubSecretsViaCli with msg | ⟨⟩
    · exact callsSpec_fail 8 st _
    · exact callsSpec_chain 8 9 st
        (pushCall (pushCall st 8 .in_progress none none) 8 .complete none none)
        (provStep9 env cfg repo serviceUrl
          (pushCall (pushCall st 8 .in_progress none none) 8 .complete none none))
        [⟨8, .in_progress, none, none⟩, ⟨8, .complete, none, none⟩]
        (by simp [pushCall]) rfl (by decide) (by omega) (hnext _)

/-- Call-log shape of the pipeline suffix starting at step 7. -/
theorem provStep7_spec (env : PipelineEnv) (cfg : ProjectConfig) (repo : GitHubRepo)
    (st : RunState) : CallsSpec 7 st (provStep7 env cfg repo st) := by
  unfold provStep7
  rcases env.createService with msg | serviceId
  · exact callsSpec_fail 7 st _
  · rcases env.setServiceRootDirectory with msg | ⟨⟩
    · exact callsSpec_fail 7 st _
    · rcases env.getServiceDomain with msg | serviceUrl
      · exact callsSpec_fail 7 st _
      · rcases env.setServiceVariablesApp with msg | ⟨⟩
        · exact callsSpec_fail 7 st _
        · rcases env.connectServiceToGitHub with msg | ⟨⟩
          · exact callsSpec_fail 7 st _
          · exact callsSpec_chain 7 8 st
              (pushCall (pushCall st 7 .in_progress none none) 7 .complete none none)
              (provStep8 env cfg repo serviceUrl
                (pushCall (pushCall st 7 .in_progress none none) 7 .complete none none))
              [⟨7, .in_progress, none, none⟩, ⟨7, .complete, none, none⟩]
              (by simp [pushCall]) rfl (by decide) (by omega)
              (provStep8_spec env cfg repo serviceUrl _)

/-- Call-log shape of the pipeline suffix starting at step 6. -/
theorem provStep6_spec (env : PipelineEnv) (cfg : ProjectConfig) (repo : GitHubRepo)
    (st : RunState) : CallsSpec 6 st (provStep6 env cfg repo st) := by
  unfold provStep6
  rcases env.initializeAndPushRepo with msg | ⟨⟩
  · exact callsSpec_fail 6 st _
  · exact callsSpec_chain 6 7 st
      (pushCall (pushCall st 6 .in_progress none none) 6 .complete none none)
      (provStep7 env cfg repo
        (pushCall (pushCall st 6 .in_progress none none) 6 .complete none none))
      [⟨6, .in_progress, none, none⟩, ⟨6, .complete, none, none⟩]
      (by simp [pushCall]) rfl (by decide) (by omega)
      (provStep7_spec env cfg repo _)

/-- Call-log shape of the pipeline suffix starting at step 5. -/
theorem provStep5_spec (env : PipelineEnv) (cfg : ProjectConfig) (st : RunState) :
    CallsSpec 5 st (provStep5 env cfg st) := by
  unfold provStep5
  rcases env.createGitHubRepo with msg | githubRepo
  · exact callsSpec_fail 5 st _
  · exact callsSpec_chain 5 6 st
      (pushCall { pushCall st 5 .in_progress none none with createdResources :=
        { (pushCall st 5 .in_progress none none).createdResources with
          githubRepo := some (githubRepo.owner, githubRepo.repo) } } 5 .complete none none)
      (provStep6 env cfg githubRepo
        (pushCall { pushCall st 5 .in_progress none none with createdResources :=
          { (pushCall st 5 .in_progress none none).createdResources with
            githubRepo := some (githubRepo.owner, githubRepo.repo) } } 5 .complete none none))
      [⟨5, .in_progress, none, none⟩, ⟨5, .complete, none, none⟩]
      (by simp [pushCall]) rfl (by decide) (by omega)
      (provStep6_spec env cfg githubRepo _)

/-- Call-log shape of the pipeline suffix starting at step 4. -/
theorem provStep4_spec (env : PipelineEnv) (cfg : ProjectConfig) (st : RunState) :
    CallsSpec 4 st (provStep4 env cfg st) := by
  unfold provStep4 runPayloadMigrationGeneration
  rcases env.migrationRun.exitResult with msg | code
  · exact callsSpec_fail_extra 4 st _ _ (subprocessCalls_index 4 env.migrationRun.lines)
  · rcases code with _ | code2
    · exact callsSpec_chain 4 5 st
        (pushCall (applyCalls (pushCall st 4 .in_progress none none)
          (subprocessCalls 4 env.migrationRun.lines)) 4 .complete none none)
        (provStep5 env cfg
          (pushCall (applyCalls (pushCall st 4 .in_progress none none)
            (subprocessCalls 4 env.migrationRun.lines)) 4 .complete none none))
        (⟨4, StepStatus.in_progress, none, none⟩ ::
          (subprocessCalls 4 env.migrationRun.lines ++ [⟨4, StepStatus.complete, none, none⟩]))
        (by rw [pushCall_calls, applyCalls_calls, pushCall_calls]
            simp)
        (by rw [pushCall_error, applyCalls_error, pushCall_error])
        (own_subproc_index 4 env.migrationRun.lines) (by omega)
        (provStep5_spec env cfg _)
    · exact callsSpec_fail_extra 4 st _ _ (subprocessCalls_index 4 env.migrationRun.lines)

/-- Call-log shape of the pipeline suffix starting at step 3. -/
theorem provStep3_spec (env : PipelineEnv) (cfg : ProjectConfig) (st : RunState) :
    CallsSpec 3 st (provStep3 env cfg st) := by
  unfold provStep3
  rcases env.provisionPostgres with msg | databaseUrl
  · exact callsSpec_fail 3 st _
  · exact callsSpec_chain 3 4 st
      (pushCall (pushCall st 3 .in_progress none none) 3 .complete none none)
      (provStep4 env cfg
        (pushCall (pushCall st 3 .in_progress none none) 3 .complete none none))
      [⟨3, .in_progress, none, none⟩, ⟨3, .complete, none, none⟩]
      (by simp [pushCall]) rfl (by decide) (by omega)
      (provStep4_spec env cfg _)

/-- Call-log shape of the pipeline suffix starting at step 2. -/
theorem provStep2_spec (env : PipelineEnv) (cfg : ProjectConfig) (st : RunState) :
    CallsSpec 2 st (provStep2 env cfg st) := by
  unfold provStep2
  rcases env.createRailwayProject with msg | pair
  · exact callsSpec_fail 2 st _
  · rcases pair with ⟨projectId, environmentId⟩
    exact callsSpec_chain 2 3 st
      (pushCall { pushCall st 2 .in_progress none none with createdResources :=
        { (pushCall st 2 .in_progress none none).createdResources with
          railwayProjectId := some projectId } } 2 .complete none none)
      (provStep3 env cfg
        (pushCall { pushCall st 2 .in_progress none none with createdResources :=
          { (pushCall st 2 .in_progress none none).createdResources with
            railwayProjectId := some projectId } } 2 .complete none none))
      [⟨2, .in_progress, none, none⟩, ⟨2, .complete, none, none⟩]
      (by simp [pushCall]) rfl (by decide) (by omega)
      (provStep3_spec env cfg _)

/-- Call-log shape of the pipeline suffix starting at step 1. -/
theorem provStep1_spec (env : PipelineEnv) (cfg : ProjectConfig) (st : RunState) :
    CallsSpec 1 st (provStep1 env cfg st) := by
  unfold provStep1 runNpmInstall
  rcases env.withTestValues with _ | _
  · rcases env.npmInstallPayload.exitResult with msg | code
    · exact callsSpec_fail_extra 1 st _ _ (subprocessCalls_index 1 env.npmInstallPayload.lines)
    · rcases code with _ | code2
      · rcases env.npmInstallWeb.exitResult with msg | code3
        · exact callsSpec_fail_general 1 st _ _
            (⟨1, StepStatus.in_progress, none, none⟩ ::
              (subprocessCalls 1 env.npmInstallPayload.lines ++
                subprocessCalls 1 env.npmInstallWeb.lines))
            (by rw [applyCalls_calls, applyCalls_calls, pushCall_calls]
                simp)
            (by rw [applyCalls_error, applyCalls_error, pushCall_error])
            (by intro c hc
                rcases List.mem_cons.mp hc with h | h
                · subst h; rfl
                · rcases List.mem_append.mp h with h2 | h2
                  · exact subprocessCalls_index 1 _ c h2
                  · exact subprocessCalls_index 1 _ c h2)
            (List.mem_cons_self _ _)
        · rcases code3 with _ | code4
          · exact callsSpec_chain 1 2 st
              (pushCall (applyCalls (applyCalls (pushCall st 1 .in_progress none none)
                (subprocessCalls 1 env.npmInstallPayload.lines))
                (subprocessCalls 1 env.npmInstallWeb.lines)) 1 .complete none none)
              (provStep2 env cfg
                (pushCall (applyCalls (applyCalls (pushCall st 1 .in_progress none none)
                  (subprocessCalls 1 env.npmInstallPayload.lines))
                  (subprocessCalls 1 env.npmInstallWeb.lines)) 1 .complete none none))
              (⟨1, StepStatus.in_progress, none, none⟩ ::
                (subprocessCalls 1 env.npmInstallPayload.lines ++
                  (subprocessCalls 1 env.npmInstallWeb.lines ++
                    [⟨1, StepStatus.complete, none, none⟩])))
              (by rw [pushCall_calls, applyCalls_calls, applyCalls_calls, pushCall_calls]
                  simp)
              (by rw [pushCall_error, applyCalls_error, applyCalls_error, pushCall_error])
              (by intro c hc
                  rcases List.mem_cons.mp hc with h | h
                  · subst h; rfl
                  · rcases List.mem_append.mp h with h2 | h2
                    · exact subprocessCalls_index 1 _ c h2
                    · rcases List.mem_append.mp h2 with h3 | h3
                      · exact subprocessCalls_index 1 _ c h3
                      · rw [List.mem_singleton] at h3; subst h3; rfl)
              (by omega)
              (provStep2_spec env cfg _)
          · exact callsSpec_fail_general 1 st _ _
              (⟨1, StepStatus.in_progress, none, none⟩ ::
                (subprocessCalls 1 env.npmInstallPayload.lines ++
                  subprocessCalls 1 env.npmInstallWeb.lines))
              (by rw [applyCalls_calls, applyCalls_calls, pushCall_calls]
                  simp)
              (by rw [applyCalls_error, applyCalls_error, pushCall_error])
              (by intro c hc
                  rcases List.mem_cons.mp hc with h | h
                  · subst h; rfl
                  · rcases List.mem_append.mp h with h2 | h2
                    · exact subprocessCalls_index 1 _ c h2
                    · exact subprocessCalls_index 1 _ c h2)
              (List.mem_cons_self _ _)
      · exact callsSpec_fail_extra 1 st _ _ (subprocessCalls_index 1 env.npmInstallPayload.lines)
  · rcases env.cachedFilesValid with _ | _
    · exact callsSpec_fail 1 st _
    · rcases env.copyCachedFiles with msg | ⟨⟩
      · exact callsSpec_fail 1 st _
      · exact callsSpec_chain 1 2 st
          (pushCall (pushCall st 1 .in_progress none none) 1 .complete none none)
          (provStep2 env cfg
            (pushCall (pushCall st 1 .in_progress none none) 1 .complete none none))
          [⟨1, .in_progress, none, none⟩, ⟨1, .complete, none, none⟩]
          (by simp [pushCall]) rfl (by decide) (by omega)
          (provStep2_spec env cfg _)

/-- Call-log shape of the whole pipeline body, from step 0. -/
theorem provStep0_spec (env : PipelineEnv) (cfg : ProjectConfig) (st : RunState) :
    CallsSpec 0 st (provStep0 env cfg st) := by
  unfold provStep0
  rcases env.scaffoldProject with msg | ⟨⟩
  · exact callsSpec_fail 0 st _
  · exact callsSpec_chain 0 1 st
      (pushCall (pushCall st 0 .in_progress none none) 0 .complete none none)
      (provStep1 env cfg
        (pushCall (pushCall st 0 .in_progress none none) 0 .complete none none))
      [⟨0, .in_progress, none, none⟩, ⟨0, .complete, none, none⟩]
      (by simp [pushCall]) rfl (by decide) (by omega)
      (provStep1_spec env cfg _)

/-- Boundary result: in every FIRST provisioning run (captured snapshot
empty) that fails at step k, every step after k stays pending in every
timeline state the run ever produces.  The restriction to first runs is
essential: a rerun started from the menu captures the previous timeline (see
rerun_marks_later_step_error below) and violates this property. -/
theorem laterSteps_stay_pending (env : PipelineEnv) (creds : Credentials) (cfg : ProjectConfig)
    (k j : Nat) (hfail : failsAtStep (canonicalRun env creds cfg) k) (hj : k < j) :
    stepStaysPending (canonicalRun env creds cfg) j := by
  by_cases hdir : env.dirExists = true
  · have hrun : canonicalRun env creds cfg =
        { initialRunState with
          steps := initialSteps
          appStep := AppStep.error
          error := some (dirExistsMessage cfg.projectSlug) } := by
      simp [canonicalRun, runProvisioning, hdir]
    rw [hrun] at hfail
    rcases hfail with ⟨_, hk, _⟩
    simp [startedIndices, initialRunState] at hk
  · have hdir2 : env.dirExists = false := by simpa using hdir
    rcases hres : provStep0 env cfg { initialRunState with steps := initialSteps }
      with ⟨st1, msgOpt⟩
    have hspec := provStep0_spec env cfg { initialRunState with steps := initialSteps }
    rw [hres] at hspec
    obtain ⟨Δ, m, hcalls, hm, hb, hmem, herr⟩ := hspec
    have hcalls2 : st1.calls =
        ({ initialRunState with steps := initialSteps } : RunState).calls ++ Δ := hcalls
    have herr2 : st1.error = ({ initialRunState with steps := initialSteps } : RunState).error :=
      herr
    cases msgOpt with
    | none =>
      have hrun : canonicalRun env creds cfg = st1 := by
        simp [canonicalRun, runProvisioning, hdir2, hres]
      rw [hrun] at hfail
      rcases hfail with ⟨hsome, _, _⟩
      rw [herr2] at hsome
      simp [initialRunState] at hsome
    | some msg =>
      have hrun : canonicalRun env creds cfg =
          handleRunFailure (some creds) canonicalCaptured env.deleteGitHubRepoThrows
            env.deleteRailwayProjectThrows msg st1 := by
        simp [canonicalRun, runProvisioning, hdir2, hres]
      have hcallsrun : (handleRunFailure (some creds) canonicalCaptured
          env.deleteGitHubRepoThrows env.deleteRailwayProjectThrows msg st1).calls
            = st1.calls := rfl
      have hrc : (canonicalRun env creds cfg).calls = Δ := by
        rw [hrun, hcallsrun, hcalls2]
        simp [initialRunState]
      rcases hfail with ⟨_, hkmem, hkmax⟩
      rw [hrc] at hkmem hkmax
      obtain ⟨c, hcΔ, hcm, hcs⟩ := hmem
      have hmk : m ≤ k := hkmax m (mem_startedIndices.mpr ⟨c, hcΔ, hcs, hcm⟩)
      unfold stepStaysPending timelineStates
      rw [hrc]
      refine scanl_pending j Δ initialSteps ?_ ?_
      · intro c2 hc2
        have h2 := (hb c2 hc2).2
        omega
      · intro s hs
        have hsm : s ∈ initialSteps := List.getElem?_mem hs
        have hall : ∀ s ∈ initialSteps, s.status = StepStatus.pending := by decide
        exact hall s hsm

/-- Instantiation of the boundary result: the first run failing at step 3
keeps step 4 pending in every timeline state. -/
theorem laterSteps_stay_pending_witness :
    failsAtStep (canonicalRun dbFailEnv testCreds testConfig) 3 ∧
      stepStaysPending (canonicalRun dbFailEnv testCreds testConfig) 4 :=
  ⟨by unfold failsAtStep; decide,
    laterSteps_stay_pending dbFailEnv testCreds testConfig 3 4
      (by unfold failsAtStep; decide) (by decide)⟩

/-! ## A rerun after a failed run (claim C4, second-run scenario) -/

/-- Environment of a rerun whose Railway project creation (step 2) throws. -/
def railwayFailEnv : PipelineEnv :=
  { okEnv with createRailwayProject := Except.error "railway down" }

/-- The snapshot captured by the closures of a rerun started from the menu
after the failed dbFailEnv run: handleReturnToMenu (part_002, lines 245-255)
resets createdResources, error, finalResult and the rest but never
provisioningSteps, so the render that launches the new run still holds the
previous run's final timeline — in which step 3 is stuck in_progress (the C1
slip) — and the new closures capture it. -/
def rerunCaptured : CapturedState :=
  { steps := (canonicalRun dbFailEnv testCreds testConfig).steps
    createdResources := {} }

/-- The live state when the rerun's effect fires: the stale timeline is still
live too (runProvisioning overwrites it with the thirteen pending steps as
its first action); everything else was reset by handleReturnToMenu. -/
def rerunInitialState : RunState :=
  { initialRunState with steps := (canonicalRun dbFailEnv testCreds testConfig).steps }

/-- The rerun itself: same credentials and config, captured snapshot from the
stale render. -/
def rerun : RunState :=
  runProvisioning railwayFailEnv (some testCreds) (some testConfig) rerunCaptured
    rerunInitialState

/-- C4: exhibit of a reachable run on which a later step does transition.
The rerun fails at step 2 (createRailwayProject throws "railway down"), yet
the catch handler finds the in_progress entry of the CAPTURED stale timeline
at index 3 and marks step 3 of the fresh timeline error with the new message:
step 3 > 2 transitions pending → error, so steps k+1..n do not keep status
pending.  (Step 2 itself is again left in_progress, as in C1.) -/
theorem rerun_marks_later_step_error :
    failsAtStep rerun 2 ∧ ¬ stepStaysPending rerun 3 ∧
      (rerun.steps.map ProvisioningStep.status)
        = [.complete, .complete, .in_progress, .error, .pending, .pending, .pending,
           .pending, .pending, .pending, .pending, .pending, .pending] ∧
      rerun.error = some "railway down" ∧
      rerun.steps[3]? = some ⟨"Provisioning PostgreSQL database", StepStatus.error,
        some "railway down", none⟩ := by
  refine ⟨by unfold failsAtStep; decide, ?_, by decide, by decide, by decide⟩
  intro h
  have hmem : rerun.steps ∈ timelineStates rerun := by decide
  have h3 := h rerun.steps hmem
    ⟨"Provisioning PostgreSQL database", StepStatus.error, some "railway down", none⟩
    (by decide)
  exact absurd h3 (by decide)
